import Mathlib

/-!
Verification of the CartInspect calculator's entity-resolution proxy and
batch orchestrator scripts (proxy/server.js, scripts/retry-missing-uats.js,
scripts/retry-final.js, scripts/fetch-all-uat-data.js).

Names are modelled as lists of characters (one entry per Unicode code
point, matching how the JavaScript string operations used by the source
traverse their input).  JavaScript numbers appearing as monetary amounts
are modelled as rationals; years and housing counts as integers.
-/

namespace CartInspect

/-- Shorthand: the character list underlying a string literal. -/
def str (s : String) : List Char := s.data

/-- Per-character model of the JavaScript toUpperCase used by the proxy,
covering the characters that occur in the repository's names and keyword
lists: ASCII letters and the Romanian diacritic letters.  Every other
character (digits, spaces, hyphens, already-uppercase letters) is mapped
to itself, exactly as simple Unicode uppercasing does on this alphabet. -/
def jsCharUpper (c : Char) : Char :=
  match c with
  | 'a' => 'A' | 'b' => 'B' | 'c' => 'C' | 'd' => 'D' | 'e' => 'E'
  | 'f' => 'F' | 'g' => 'G' | 'h' => 'H' | 'i' => 'I' | 'j' => 'J'
  | 'k' => 'K' | 'l' => 'L' | 'm' => 'M' | 'n' => 'N' | 'o' => 'O'
  | 'p' => 'P' | 'q' => 'Q' | 'r' => 'R' | 's' => 'S' | 't' => 'T'
  | 'u' => 'U' | 'v' => 'V' | 'w' => 'W' | 'x' => 'X' | 'y' => 'Y'
  | 'z' => 'Z'
  | 'ă' => 'Ă' | 'â' => 'Â' | 'î' => 'Î'
  | 'ș' => 'Ș' | 'ş' => 'Ş' | 'ț' => 'Ț' | 'ţ' => 'Ţ'
  | c => c

/-- Model of JavaScript s.toUpperCase() on a name. -/
def upper (s : List Char) : List Char := s.map jsCharUpper

/-- Model of JavaScript hay.includes(needle) on strings. -/
def listIncludes (hay needle : List Char) : Bool :=
  match hay with
  | [] => needle.isEmpty
  | _ :: t => needle.isPrefixOf hay || listIncludes t needle

/-- The uat sub-object of a search result node (server.js EntitySearch
query): county_name, name and siruta_code, each possibly null. -/
structure Uat where
  county_name : Option (List Char)
  name : Option (List Char)
  siruta_code : Option (List Char)
deriving DecidableEq, Repr

/-- A candidate entity node returned by the search index (server.js
searchEntities): display name, tax identifier, optional uat record. -/
structure Candidate where
  name : Option (List Char)
  cui : Option (List Char)
  uat : Option Uat
deriving DecidableEq, Repr

/-- The uppercased display name, modelling (n.name or the empty string)
dot toUpperCase() as computed by isPrimaria and isBlacklisted. -/
def upperName (n : Candidate) : List Char := upper (n.name.getD [])

/-- server.js isPrimaria: the display name, uppercased, contains one of
the administrative-office markers. -/
def isPrimaria (n : Candidate) : Bool :=
  let nm := upperName n
  listIncludes nm (str "PRIMĂRIA") || listIncludes nm (str "PRIMARIA") ||
    listIncludes nm (str "ORAȘ") || listIncludes nm (str "ORAS") ||
    listIncludes nm (str "MUNICIPIUL") || listIncludes nm (str "COMUNA")

/-- server.js isBlacklisted: the badKeywords array, in source order. -/
def badKeywords : List (List Char) :=
  [str "SCOALA", str "ȘCOALA", str "ȘCOALĂ", str "LICEUL", str "LICEU",
   str "GRADINITA", str "GRĂDINIȚA", str "GRĂDINIȚĂ",
   str "SPITAL", str "BISERICA", str "BISERICĂ",
   str "BIBLIOTECA", str "BIBLIOTECĂ",
   str "MUZEU", str "CASA DE CULTURA",
   str "CLUBUL", str "POLITIA", str "POLIȚIA",
   str "INSPECTORAT", str "SEMINARUL",
   str "COLEGIUL", str "UNIVERSITATE", str "GIMNAZIAL",
   str "TRIBUNALUL", str "TRIBUNAL",
   str "JUDECATORIA", str "JUDECĂTORIA",
   str "CURTEA DE APEL", str "PARCHETUL",
   str "DIRECTIA", str "DIRECȚIA",
   str "AGENTIA", str "AGENȚIA",
   str "CAMERA DE COMERT", str "PREFECTURA",
   str "SERVICIUL", str "CENTRUL",
   str "CRESA", str "CREȘA", str "CREŞA",
   str "OPERA ", str "FILARMONICA", str "TEATRUL",
   str "SPORT CLUB", str "CLUBUL SPORTIV",
   str "INSTITUTIA", str "INSTITUȚIA",
   str "OFICIUL", str "OCOLUL",
   str "COMPANIA", str "REGIA",
   str "ADMINISTRATIA", str "ADMINISTRAȚIA",
   str "CONSILIUL JUDETEAN", str "CONSILIUL JUDEȚEAN",
   str "PENITENCIAR", str "PALATUL", str "CASA CORPULUI",
   str "ASOCIATIA", str "ASOCIAȚIA", str "FUNDATIA", str "FUNDAȚIA",
   str "SOCIETATEA", str "AUTORITATEA", str "COMISARIATUL",
   str "GARDA", str "JANDARMERIA", str "POMPIER",
   str "ACADEMIA", str "FACULTATEA"]

/-- server.js isBlacklisted: the badPrefixes array. -/
def badPrefixes : List (List Char) :=
  [str "JUDETUL", str "JUDEȚUL", str "CONSILIUL"]

/-- server.js isBlacklisted: a clearly marked primăria/municipiu/comună is
never blacklisted; otherwise the uppercased display name is blacklisted
when it contains a bad keyword or starts with a bad word. -/
def isBlacklisted (n : Candidate) : Bool :=
  let nm := upperName n
  if isPrimaria n then false
  else
    badKeywords.any (fun kw => listIncludes nm kw) ||
      badPrefixes.any (fun pf => pf.isPrefixOf nm)

/-- One step of the replace(slash-dash-g, space) call: hyphens become
spaces and every other character is kept (the pattern is a single
character, so the global replace is a per-character map). -/
def dashToSpace (c : Char) : Char := if c = '-' then ' ' else c

/-- The local norm of server.js findBestMatch:
(s or the empty string).toUpperCase().replace(slash-dash-g, space). -/
def norm (s : List Char) : List Char := (upper s).map dashToSpace

/-- norm applied to an optional name (undefined becomes the empty
string via the (s or empty) guard). -/
def normOpt (s : Option (List Char)) : List Char := norm (s.getD [])

/-- The sub-locality name of a candidate: n.uat?.name. -/
def uatName (n : Candidate) : Option (List Char) := n.uat.bind (·.name)

/-- The region filter of findBestMatch:
n.uat?.county_name?.toUpperCase() === countyUpper.  A missing uat or
county name compares unequal (undefined === string is false). -/
def countyMatches (n : Candidate) (countyUpper : List Char) : Bool :=
  match n.uat with
  | none => false
  | some u =>
    match u.county_name with
    | none => false
    | some cn => upper cn == countyUpper

/-- Ranking rule 1 of findBestMatch: primăria with an exact
(hyphen/space-normalized) sub-locality name match. -/
def rule1 (nameNorm : List Char) (n : Candidate) : Bool :=
  isPrimaria n && (normOpt (uatName n) == nameNorm)

/-- Ranking rule 2: primăria whose sub-locality name contains the
target name. -/
def rule2 (nameNorm : List Char) (n : Candidate) : Bool :=
  isPrimaria n && listIncludes (normOpt (uatName n)) nameNorm

/-- Ranking rule 3: primăria whose display name contains the target
name. -/
def rule3 (nameNorm : List Char) (n : Candidate) : Bool :=
  isPrimaria n && listIncludes (norm (n.name.getD [])) nameNorm

/-- Ranking rule 4: exact sub-locality name match, office or not. -/
def rule4 (nameNorm : List Char) (n : Candidate) : Bool :=
  normOpt (uatName n) == nameNorm

/-- Ranking rule 5: sub-locality name or display name contains the
target name. -/
def rule5 (nameNorm : List Char) (n : Candidate) : Bool :=
  listIncludes (normOpt (uatName n)) nameNorm ||
    listIncludes (norm (n.name.getD [])) nameNorm

/-- Some ranking rule applies to the candidate. -/
def anyRule (nameNorm : List Char) (n : Candidate) : Bool :=
  rule1 nameNorm n || rule2 nameNorm n || rule3 nameNorm n ||
    rule4 nameNorm n || rule5 nameNorm n

/-- The region-filtered, non-excluded candidate set of findBestMatch
(the inCounty local). -/
def inCountyFiltered (nodes : List Candidate) (countyUpper : List Char) :
    List Candidate :=
  (nodes.filter (fun n => countyMatches n countyUpper)).filter
    (fun n => !isBlacklisted n)

/-- server.js findBestMatch (current variant, lines 107-127): filter to
the target county and drop blacklisted entities, then try the five
ranking rules in order; the trailing JavaScript "or null" is the none of
the final find. -/
def findBestMatch (nodes : List Candidate) (countyUpper nameUpper : List Char) :
    Option Candidate :=
  let inCounty := inCountyFiltered nodes countyUpper
  let nameNorm := norm nameUpper
  inCounty.find? (rule1 nameNorm) <|> inCounty.find? (rule2 nameNorm) <|>
    inCounty.find? (rule3 nameNorm) <|> inCounty.find? (rule4 nameNorm) <|>
    inCounty.find? (rule5 nameNorm)

/-- C1: for every target region, target name and candidate list, if no
candidate of the region-filtered, non-excluded set satisfies any of the
five ranking rules, findBestMatch returns none (first conjunct, right to
left), and conversely a none result means no rule matched (left to
right); in particular an empty filtered set always yields none (second
conjunct).  There is no fallback to an arbitrary in-region entity. -/
theorem findBestMatch_no_fallback (nodes : List Candidate)
    (countyUpper nameUpper : List Char) :
    (findBestMatch nodes countyUpper nameUpper = none ↔
      ∀ n ∈ inCountyFiltered nodes countyUpper,
        anyRule (norm nameUpper) n = false)
    ∧ (inCountyFiltered nodes countyUpper = [] →
      findBestMatch nodes countyUpper nameUpper = none) := by
  have hmain : findBestMatch nodes countyUpper nameUpper = none ↔
      ∀ n ∈ inCountyFiltered nodes countyUpper,
        anyRule (norm nameUpper) n = false := by
    simp only [findBestMatch, Option.orElse_eq_none, List.find?_eq_none,
      anyRule]
    constructor
    · rintro ⟨h1, h2, h3, h4, h5⟩ n hn
      simp only [Bool.or_eq_false_iff]
      exact ⟨⟨⟨⟨by simpa using h1 n hn, by simpa using h2 n hn⟩,
        by simpa using h3 n hn⟩, by simpa using h4 n hn⟩,
        by simpa using h5 n hn⟩
    · intro h
      refine ⟨fun n hn => ?_, fun n hn => ?_, fun n hn => ?_,
        fun n hn => ?_, fun n hn => ?_⟩ <;>
        have := h n hn <;>
        simp only [Bool.or_eq_false_iff] at this <;>
        simp [this.1.1.1.1, this.1.1.1.2, this.1.1.2, this.1.2, this.2]
  refine ⟨hmain, fun hempty => ?_⟩
  exact hmain.mpr (by simp [hempty])

/-- Witness for C1: a school entity is excluded, so the filtered set for
its county is empty and the resolver reports absent. -/
def schoolCand : Candidate :=
  { name := some (str "SCOALA GIMNAZIALA ALBA"), cui := none,
    uat := some { county_name := some (str "Sample"),
                  name := some (str "Alba"), siruta_code := none } }

/-- Witness instantiating C1 at a concrete candidate list whose filtered
set is empty: the resolver returns absent rather than a guessed
entity. -/
theorem findBestMatch_no_fallback_witness :
    inCountyFiltered [schoolCand] (str "SAMPLE") = [] ∧
      findBestMatch [schoolCand] (str "SAMPLE") (str "ALBA") = none :=
  ⟨by decide,
    (findBestMatch_no_fallback [schoolCand] (str "SAMPLE")
      (str "ALBA")).2 (by decide)⟩

/-- C2: a candidate whose display name carries an office marker (the
isPrimaria test of the classifier) is never blacklisted, regardless of
which blacklist keywords or prefixes its name also contains. -/
theorem isPrimaria_never_blacklisted (n : Candidate)
    (h : isPrimaria n = true) : isBlacklisted n = false := by
  simp [isBlacklisted, h]

/-- A display name containing both an office marker (COMUNA) and a
blacklist keyword (SCOALA). -/
def mixCand : Candidate :=
  { name := some (str "SCOALA COMUNA REA"), cui := none, uat := none }

/-- Witness instantiating C2 on a name that contains both an office
marker and a blacklist keyword: the office marker wins. -/
theorem isPrimaria_never_blacklisted_witness :
    isPrimaria mixCand = true ∧ isBlacklisted mixCand = false :=
  ⟨by decide, isPrimaria_never_blacklisted mixCand (by decide)⟩

/-- The comparison findBestMatch performs between a candidate name and
the target name: both are normalized with norm and compared for
equality (the spec's hyphenSpaceEquivalent). -/
def hyphenSpaceEquivalent (a b : List Char) : Bool := norm a == norm b

/-- Modelled from the spec: names are equal after replacing all hyphens
with spaces and upper-casing (replacement first, upper-casing second,
the reading of the spec sentence); compared below with the code's
normalization, which upper-cases first. -/
def specNormalize (s : List Char) : List Char :=
  (s.map dashToSpace).map jsCharUpper

set_option maxRecDepth 8192 in
/-- Upper-casing commutes with the hyphen-to-space replacement: no
character upper-cases to a hyphen, and the hyphen upper-cases to
itself. -/
theorem dashToSpace_jsCharUpper_comm (c : Char) :
    dashToSpace (jsCharUpper c) = jsCharUpper (dashToSpace c) := by
  by_cases h : c = '-'
  · subst h; rfl
  · have h2 : dashToSpace c = c := if_neg h
    rw [h2]
    unfold jsCharUpper
    split <;> simp [dashToSpace, h]

/-- The code's normalization (upper-case, then hyphens to spaces) equals
the spec's (hyphens to spaces, then upper-case). -/
theorem norm_eq_specNormalize (s : List Char) : norm s = specNormalize s := by
  rw [norm, specNormalize, upper, List.map_map, List.map_map]
  have : (dashToSpace ∘ jsCharUpper) = (jsCharUpper ∘ dashToSpace) :=
    funext dashToSpace_jsCharUpper_comm
  rw [this]

/-- An office candidate indexed with a space where the target name has a
hyphen. -/
def twinCand : Candidate :=
  { name := some (str "PRIMARIA TWIN RIVERS"), cui := some (str "1"),
    uat := some { county_name := some (str "Sample"),
                  name := some (str "Twin Rivers"), siruta_code := none } }

/-- C6: the exact-match comparison holds precisely when the two names
agree after replacing hyphens with spaces and upper-casing; the
comparison is symmetric; and the resolver's exact sub-locality rule
accepts target TWIN-RIVERS for a candidate indexed as Twin Rivers. -/
theorem hyphenSpaceEquivalent_spec :
    (∀ a b : List Char,
      hyphenSpaceEquivalent a b = true ↔ specNormalize a = specNormalize b)
    ∧ (∀ a b : List Char,
      hyphenSpaceEquivalent a b = hyphenSpaceEquivalent b a)
    ∧ findBestMatch [twinCand] (str "SAMPLE") (str "TWIN-RIVERS") =
        some twinCand := by
  refine ⟨fun a b => ?_, fun a b => ?_, by decide⟩
  · simp [hyphenSpaceEquivalent, norm_eq_specNormalize]
  · rw [Bool.eq_iff_iff]
    unfold hyphenSpaceEquivalent
    rw [beq_iff_eq, beq_iff_eq]
    exact eq_comm

/-- One step of the replace(slash-space-g, dash) call building the
hyphenated variant of a name. -/
def spaceToDash (c : Char) : Char := if c = ' ' then '-' else c

/-- The hyphenated name variant name.replace(slash-space-g, dash). -/
def hyphenVariant (name : List Char) : List Char := name.map spaceToDash

/-- server.js /api/entity-data: the searchStrategies list, five base
queries plus, when the name contains a space, three hyphen-variant
queries pushed at the end.  The list is not de-duplicated. -/
def searchStrategies (name county : List Char) : List (List Char) :=
  [str "Primaria " ++ name ++ str " " ++ county,
   str "Comuna " ++ name ++ str " " ++ county,
   name ++ str " " ++ county,
   str "Municipiul " ++ name ++ str " " ++ county,
   str "Primaria " ++ name] ++
  (if name.contains ' ' then
    [str "Municipiul " ++ hyphenVariant name ++ str " " ++ county,
     hyphenVariant name ++ str " " ++ county,
     str "Primaria " ++ hyphenVariant name]
   else [])

/-- retry-final.js TYPE_PREFIX lookup with the JavaScript (lookup or
empty string) default. -/
def officeWordOf (tip : List Char) : List Char :=
  if tip = str "municipiu" then str "MUNICIPIUL"
  else if tip = str "oraș" then str "ORAȘUL"
  else if tip = str "comună" then str "COMUNA"
  else []

/-- Per-character model of removeDiacritics (NFD normalization followed
by combining-mark removal), on the Romanian diacritic letters occurring
in the catalog; other characters are unchanged. -/
def diaChar (c : Char) : Char :=
  match c with
  | 'ă' => 'a' | 'â' => 'a' | 'î' => 'i'
  | 'ș' => 's' | 'ş' => 's' | 'ț' => 't' | 'ţ' => 't'
  | 'Ă' => 'A' | 'Â' => 'A' | 'Î' => 'I'
  | 'Ș' => 'S' | 'Ş' => 'S' | 'Ț' => 'T' | 'Ţ' => 'T'
  | c => c

/-- retry-final.js removeDiacritics. -/
def removeDiacritics (s : List Char) : List Char := s.map diaChar

/-- uat.split(regex space-or-dash)[0]: the leading run of characters up
to the first space or hyphen. -/
def firstToken (s : List Char) : List Char :=
  s.takeWhile (fun c => !(c == ' ' || c == '-'))

/-- The de-duplication filter (v, i, a) keeping only the first
occurrence of each string, as an accumulating fold. -/
def jsDedup (l : List (List Char)) : List (List Char) :=
  l.foldl (fun acc v => if v ∈ acc then acc else acc ++ [v]) []

/-- retry-final.js main: the six search patterns for one catalog entry,
de-duplicated by exact string equality. -/
def patterns (tip uat county : List Char) : List (List Char) :=
  let pfx := officeWordOf tip
  let plain := removeDiacritics uat
  jsDedup
    [pfx ++ str " " ++ uat,
     pfx ++ str " " ++ plain,
     uat ++ str " " ++ county,
     plain ++ str " " ++ county,
     str "primaria " ++ uat,
     pfx ++ str " " ++ firstToken uat ++ str " " ++ county]

/-- The accumulating first-occurrence fold keeps the accumulator free of
duplicates. -/
theorem jsDedup_foldl_nodup (l : List (List Char)) :
    ∀ acc : List (List Char), acc.Nodup →
      (l.foldl (fun acc v => if v ∈ acc then acc else acc ++ [v]) acc).Nodup := by
  induction l with
  | nil => exact fun acc h => h
  | cons v t ih =>
    intro acc h
    rw [List.foldl_cons]
    by_cases hv : v ∈ acc
    · rw [if_pos hv]; exact ih acc h
    · rw [if_neg hv]
      exact ih (acc ++ [v])
        (by simp [List.nodup_append, h, List.disjoint_singleton, hv])

/-- The accumulating fold adds at most one entry per input element. -/
theorem jsDedup_foldl_length (l : List (List Char)) :
    ∀ acc : List (List Char),
      (l.foldl (fun acc v => if v ∈ acc then acc else acc ++ [v]) acc).length ≤
        acc.length + l.length := by
  induction l with
  | nil => simp
  | cons v t ih =>
    intro acc
    rw [List.foldl_cons]
    by_cases hv : v ∈ acc
    · rw [if_pos hv]
      have := ih acc
      simp only [List.length_cons]
      omega
    · rw [if_neg hv]
      have := ih (acc ++ [v])
      simp only [List.length_append, List.length_singleton] at this
      simp only [List.length_cons]
      omega

/-- Index of the first occurrence of a query string in a strategy list
(length of the list when absent). -/
def queryPos (a : List Char) : List (List Char) → Nat
  | [] => 0
  | b :: t => if b = a then 0 else queryPos a t + 1

/-- Counterexample to C8: the proxy's strategy list is not
de-duplicated; for name Primaria in county Primaria the generic query
and the county-less office query are both the string
Primaria Primaria, so the list contains a duplicate. -/
theorem searchStrategies_duplicate :
    ¬ (searchStrategies (str "Primaria") (str "Primaria")).Nodup := by
  decide

/-- C8 as amended: for every input, the proxy's strategy list has at
most 8 entries (hence within the cap of 10) and its office-word query
Primaria-name-county sits at position 0, strictly before the generic
name-county query at position 2; the retry script's pattern list is
de-duplicated, so it never contains duplicate strings and has at most 6
entries; only the proxy list may repeat a string. -/
theorem searchStrategies_cap_order_and_patterns_nodup
    (name county tip uat : List Char) :
    (searchStrategies name county).length ≤ 8
    ∧ queryPos (str "Primaria " ++ name ++ str " " ++ county)
        (searchStrategies name county) = 0
    ∧ queryPos (name ++ str " " ++ county) (searchStrategies name county) = 2
    ∧ (patterns tip uat county).Nodup
    ∧ (patterns tip uat county).length ≤ 6 := by
  have hne1 : ¬ (str "Primaria " ++ name ++ str " " ++ county =
      name ++ str " " ++ county) := by
    intro h
    apply_fun List.length at h
    simp only [List.length_append] at h
    have l1 : (str "Primaria ").length = 9 := rfl
    rw [l1] at h
    omega
  have hne2 : ¬ (str "Comuna " ++ name ++ str " " ++ county =
      name ++ str " " ++ county) := by
    intro h
    apply_fun List.length at h
    simp only [List.length_append] at h
    have l1 : (str "Comuna ").length = 7 := rfl
    rw [l1] at h
    omega
  refine ⟨?_, ?_, ?_, ?_, ?_⟩
  · unfold searchStrategies
    split <;> simp
  · unfold searchStrategies
    simp only [List.cons_append, queryPos, if_pos]
  · unfold searchStrategies
    simp only [List.cons_append, List.nil_append, queryPos, if_neg hne1,
      if_neg hne2, if_pos]
  · exact jsDedup_foldl_nodup _ [] List.nodup_nil
  · have h6 := jsDedup_foldl_length
      [officeWordOf tip ++ str " " ++ uat,
       officeWordOf tip ++ str " " ++ removeDiacritics uat,
       uat ++ str " " ++ county,
       removeDiacritics uat ++ str " " ++ county,
       str "primaria " ++ uat,
       officeWordOf tip ++ str " " ++ firstToken uat ++ str " " ++ county] []
    exact le_trans h6 (by simp only [List.length_cons, List.length_nil]; omega)

/-- Math.round(x * 100) / 100, the two-decimal rounding of the financial
fetch; Math.round is floor of the argument plus one half. -/
def round2 (q : ℚ) : ℚ := (⌊q * 100 + 1 / 2⌋ : ℚ) / 100

/-- One row of the AggregatedLineItems response: functional code fn_c
and amount; the amount is kept as the result of parseFloat, absent when
unparseable. -/
structure FinRow where
  fn_c : List Char
  amount : Option ℚ
deriving DecidableEq, Repr

/-- The code === target test of the per-row loop. -/
def isTargetRow (n : FinRow) : Bool := n.fn_c == str "07.01.01"

/-- parseFloat(node.amount) || 0. -/
def parseAmt (n : FinRow) : ℚ := n.amount.getD 0

/-- The per-year row loop of fetchFinancialData: the accumulator starts
at zero and every row whose code is 07.01.01 overwrites it. -/
def lastMatchAmount (nodes : List FinRow) : ℚ :=
  nodes.foldl (fun acc n => if isTargetRow n then parseAmt n else acc) 0

/-- The value fetchFinancialData resolves with on success: the year and
the rounded amount (stored twice, as impozitCladiriFizice and total). -/
structure FinData where
  year : ℤ
  impozitCladiriFizice : ℚ
  total : ℚ
deriving DecidableEq, Repr

/-- The year loop of fetchFinancialData over a response oracle: a year
whose fetch fails (none), returns no rows, or whose accumulated
07.01.01 amount is not strictly positive is skipped; the first
strictly-positive year returns the rounded amount. -/
def finLoop (resp : ℤ → Option (List FinRow)) : List ℤ → Option FinData
  | [] => none
  | y :: rest =>
    match resp y with
    | none => finLoop resp rest
    | some nodes =>
      if nodes.isEmpty then finLoop resp rest
      else
        if 0 < lastMatchAmount nodes then
          some ⟨y, round2 (lastMatchAmount nodes), round2 (lastMatchAmount nodes)⟩
        else finLoop resp rest

/-- server.js fetchFinancialData: try years 2025, 2024, 2023, 2022 in
that order; return null (none) when no year yields a strictly positive
07.01.01 amount. -/
def fetchFinancialData (resp : ℤ → Option (List FinRow)) : Option FinData :=
  finLoop resp [2025, 2024, 2023, 2022]

/-- The 07.01.01 amount a given year's response accumulates to (zero for
a failed fetch or an empty row list). -/
def yearAmount (resp : ℤ → Option (List FinRow)) (y : ℤ) : ℚ :=
  match resp y with
  | none => 0
  | some nodes => lastMatchAmount nodes

/-- One observation of the LOC101B housing response: year, the parseInt
of the value (absent when unparseable) and the territory name. -/
structure Obs where
  year : ℤ
  value : Option ℤ
  territory : Option (List Char)
deriving DecidableEq, Repr

/-- The record fetchHousingData resolves with. -/
structure HouseRec where
  year : ℤ
  count : ℤ
  territory : Option (List Char)
deriving DecidableEq, Repr

/-- The most-recent-year scan of fetchHousingData: the running latest is
replaced when a node's year is strictly greater. -/
def latestStep (latest n : Obs) : Obs :=
  if latest.year < n.year then n else latest

/-- server.js fetchHousingData on the returned observation list: null
(none) for an empty list, otherwise the observation with the largest
year (the loop starts from the first node and scans all nodes),
with count = parseInt(value) || 0. -/
def fetchHousingData : List Obs → Option HouseRec
  | [] => none
  | h :: t =>
    let latest := (h :: t).foldl latestStep h
    some ⟨latest.year, latest.value.getD 0, latest.territory⟩

/-- The persisted per-locality record of the batch scripts. -/
structure StatRecord where
  tax : ℚ
  taxYear : Option ℤ
  houses : ℤ
  housesYear : Option ℤ
deriving DecidableEq, Repr

/-- JavaScript x || null on a number that may be absent: both undefined
and zero collapse to null. -/
def jsOrNoneI (x : Option ℤ) : Option ℤ :=
  match x with
  | none => none
  | some v => if v = 0 then none else some v

/-- The record built by the batch scripts from the proxy response:
tax = financial?.total || 0, taxYear = financial?.year || null,
houses = housing?.count || 0, housesYear = housing?.year || null. -/
def toStatRecord (fin : Option FinData) (hou : Option HouseRec) : StatRecord :=
  { tax := (fin.map (·.total)).getD 0
    taxYear := jsOrNoneI (fin.map (·.year))
    houses := (hou.map (·.count)).getD 0
    housesYear := jsOrNoneI (hou.map (·.year)) }

/-- financial?.total > 0 (false when financial is null). -/
def finPositive (fin : Option FinData) : Bool :=
  match fin with
  | none => false
  | some f => decide (0 < f.total)

/-- housing?.count > 0 (false when housing is null). -/
def houPositive (hou : Option HouseRec) : Bool :=
  match hou with
  | none => false
  | some h => decide (0 < h.count)

/-- retry-missing-uats.js tryFetch: a record is produced only when the
financial total or the housing count is strictly positive. -/
def tryFetchRecord (fin : Option FinData) (hou : Option HouseRec) :
    Option StatRecord :=
  if finPositive fin || houPositive hou then some (toStatRecord fin hou)
  else none

/-- The merge guard of the incremental main loop:
data.tax > 0 || data.houses > 0. -/
def mergeGuard (r : StatRecord) : Bool :=
  decide (0 < r.tax) || decide (0 < r.houses)

/-- A (region, locality) key of the result store. -/
abbrev Key := List Char × List Char

/-- The result store UAT_DATA as a partial map from keys to records. -/
abbrev Store := Key → Option StatRecord

/-- UAT_DATA[county][uat] = data. -/
def updateStore (store : Store) (k : Key) (d : StatRecord) : Store :=
  fun k2 => if k2 = k then some d else store k2

/-- The selection predicate of both retry scripts: absent from the
store, or present with tax === 0 and houses === 0. -/
def isRetryTarget (store : Store) (k : Key) : Bool :=
  match store k with
  | none => true
  | some r => decide (r.tax = 0) && decide (r.houses = 0)

/-- The missing list both retry scripts build by scanning the catalog
(the sorted county/uat enumeration) against the loaded store. -/
def selectTargets (catalog : List Key) (store : Store) : List Key :=
  catalog.filter (fun k => isRetryTarget store k)

/-- One iteration of retry-missing-uats.js main: the re-fetched record
(none when every strategy failed) is stored only when its tax or houses
is strictly positive. -/
def mergeStepMissing (fetch : Key → Option StatRecord) (store : Store)
    (k : Key) : Store :=
  match fetch k with
  | none => store
  | some d => if mergeGuard d then updateStore store k d else store

/-- retry-missing-uats.js main: select the targets against the loaded
store, then run the per-locality loop over them. -/
def runMissing (catalog : List Key) (fetch : Key → Option StatRecord)
    (store : Store) : Store :=
  (selectTargets catalog store).foldl (mergeStepMissing fetch) store

/-- The pair fetchFinancialForCui resolves with in retry-final.js. -/
structure TaxPair where
  tax : ℚ
  year : ℤ
deriving DecidableEq, Repr

/-- The record retry-final.js main builds from its two fetches:
fin?.tax || 0, fin?.year || null, housing?.count || 0,
housing?.year || null. -/
def recordFinal (fin : Option TaxPair) (hou : Option HouseRec) : StatRecord :=
  { tax := (fin.map (·.tax)).getD 0
    taxYear := jsOrNoneI (fin.map (·.year))
    houses := (hou.map (·.count)).getD 0
    housesYear := jsOrNoneI (hou.map (·.year)) }

/-- One iteration of retry-final.js main: the oracle is none when no
entity was found; when an entity was found the record is stored as soon
as either fetch produced a value (fin || housing). -/
def mergeStepFinal (fetch : Key → Option (Option TaxPair × Option HouseRec))
    (store : Store) (k : Key) : Store :=
  match fetch k with
  | none => store
  | some (fin, hou) =>
    if fin.isSome || hou.isSome then updateStore store k (recordFinal fin hou)
    else store

/-- retry-final.js main: same target selection, then the per-locality
loop. -/
def runFinal (catalog : List Key)
    (fetch : Key → Option (Option TaxPair × Option HouseRec))
    (store : Store) : Store :=
  (selectTargets catalog store).foldl (mergeStepFinal fetch) store

/-- The year loop returns exactly the first year of its list whose
accumulated amount is strictly positive, rounded, and none when there is
no such year. -/
theorem finLoop_eq_find (resp : ℤ → Option (List FinRow)) (ys : List ℤ) :
    finLoop resp ys =
      (ys.find? (fun y => decide (0 < yearAmount resp y))).map
        (fun y => ⟨y, round2 (yearAmount resp y), round2 (yearAmount resp y)⟩) := by
  induction ys with
  | nil => rfl
  | cons y t ih =>
    cases h : resp y with
    | none =>
      have hb : decide (0 < yearAmount resp y) = false := by
        simp [yearAmount, h]
      simp only [finLoop, h, List.find?, hb]
      exact ih
    | some nodes =>
      by_cases hemp : nodes.isEmpty
      · have hnil : nodes = [] := by
          cases nodes with
          | nil => rfl
          | cons a b => simp [List.isEmpty] at hemp
        have hb : decide (0 < yearAmount resp y) = false := by
          simp [yearAmount, h, hnil, lastMatchAmount]
        simp only [finLoop, h, hemp, List.find?, hb, if_true]
        exact ih
      · by_cases hpos : 0 < lastMatchAmount nodes
        · have hb : decide (0 < yearAmount resp y) = true := by
            simp [yearAmount, h, hpos]
          simp only [finLoop, h, List.find?, hb]
          simp [hemp, hpos, yearAmount, h]
        · have hb : decide (0 < yearAmount resp y) = false := by
            simp [yearAmount, h, hpos]
          simp only [finLoop, h, List.find?, hb]
          simp only [hemp, Bool.false_eq_true, if_false, if_neg hpos]
          exact ih

/-- A response oracle where, among 2022 to 2025, only 2023 carries a
strictly positive 07.01.01 amount: 2025 returns no rows, 2024 returns a
zero row, 2022 fails. -/
def resp23 : ℤ → Option (List FinRow) := fun y =>
  if y = 2023 then some [⟨str "07.01.01", some (123.456 : ℚ)⟩]
  else if y = 2024 then some [⟨str "07.01.01", some 0⟩]
  else if y = 2025 then some []
  else none

/-- C3: the tax aggregation tries 2025, 2024, 2023, 2022 in that order
and returns the first year whose 07.01.01 amount is strictly positive,
rounded to two decimals, or none when there is no such year (first
conjunct, by cases on the first positive year); a none financial result
maps to tax 0 and taxYear null in the stored record (second conjunct);
and in particular when only 2023 has a positive amount the result is
year 2023 with the rounded amount (third conjunct). -/
theorem fetchFinancialData_newest_positive (resp : ℤ → Option (List FinRow)) :
    (match ([2025, 2024, 2023, 2022] : List ℤ).find?
        (fun y => decide (0 < yearAmount resp y)) with
     | some y => fetchFinancialData resp =
        some ⟨y, round2 (yearAmount resp y), round2 (yearAmount resp y)⟩
     | none => fetchFinancialData resp = none)
    ∧ (∀ hou : Option HouseRec,
        (toStatRecord none hou).tax = 0 ∧ (toStatRecord none hou).taxYear = none)
    ∧ fetchFinancialData resp23 = some ⟨2023, (123.46 : ℚ), (123.46 : ℚ)⟩ := by
  refine ⟨?_, fun hou => ⟨rfl, rfl⟩, ?_⟩
  · have he := finLoop_eq_find resp [2025, 2024, 2023, 2022]
    cases hfind : ([2025, 2024, 2023, 2022] : List ℤ).find?
        (fun y => decide (0 < yearAmount resp y)) with
    | none =>
      rw [hfind] at he
      simpa [fetchFinancialData] using he
    | some y =>
      rw [hfind] at he
      simpa [fetchFinancialData] using he
  · have h25 : decide (0 < yearAmount resp23 (2025 : ℤ)) = false := by
      simp [yearAmount, resp23, lastMatchAmount]
    have h24 : decide (0 < yearAmount resp23 (2024 : ℤ)) = false := by
      simp [yearAmount, resp23, lastMatchAmount, isTargetRow, parseAmt]
    have hy23 : yearAmount resp23 (2023 : ℤ) = (123.456 : ℚ) := by
      simp [yearAmount, resp23, lastMatchAmount, isTargetRow, parseAmt]
    have h23 : decide (0 < yearAmount resp23 (2023 : ℤ)) = true := by
      rw [decide_eq_true_eq, hy23]
      norm_num
    have hfind : ([2025, 2024, 2023, 2022] : List ℤ).find?
        (fun y => decide (0 < yearAmount resp23 y)) = some 2023 := by
      simp only [List.find?, h25, h24, h23]
    have he := finLoop_eq_find resp23 [2025, 2024, 2023, 2022]
    rw [hfind] at he
    have hr : round2 (123.456 : ℚ) = (123.46 : ℚ) := by
      rw [round2]
      have hf : ⌊(123.456 * 100 + 1 / 2 : ℚ)⌋ = 12346 := by
        rw [Int.floor_eq_iff]
        norm_num
      rw [hf]
      norm_num
    simp only [fetchFinancialData, he, Option.map_some', hy23, hr]

/-- C7: in the record built from the two fetches, the tax fields depend
only on the financial result and the housing fields only on the housing
result (first two conjuncts), so a failure of either fetch cannot
invalidate the other; concretely, when the tax fetch fails on every year
and the housing fetch returns year 2023 with count 480, the produced
record is tax 0, taxYear null, houses 480, housesYear 2023, and it
passes the merge guard because houses is positive. -/
theorem fetches_independent :
    (∀ (fin : Option FinData) (hou hou2 : Option HouseRec),
      (toStatRecord fin hou).tax = (toStatRecord fin hou2).tax ∧
        (toStatRecord fin hou).taxYear = (toStatRecord fin hou2).taxYear)
    ∧ (∀ (fin fin2 : Option FinData) (hou : Option HouseRec),
      (toStatRecord fin hou).houses = (toStatRecord fin2 hou).houses ∧
        (toStatRecord fin hou).housesYear = (toStatRecord fin2 hou).housesYear)
    ∧ tryFetchRecord (fetchFinancialData (fun _ => none))
        (some ⟨2023, 480, none⟩) = some ⟨0, none, 480, some 2023⟩
    ∧ mergeGuard ⟨0, none, 480, some 2023⟩ = true := by
  exact ⟨fun fin hou hou2 => ⟨rfl, rfl⟩, fun fin fin2 hou => ⟨rfl, rfl⟩,
    by decide, rfl⟩

/-- The latest-year fold of fetchHousingData lands on its start value or
a list member, and its year bounds the start value's year and every
member's year. -/
theorem foldl_latest_facts (l : List Obs) : ∀ acc : Obs,
    (l.foldl latestStep acc = acc ∨ l.foldl latestStep acc ∈ l)
    ∧ acc.year ≤ (l.foldl latestStep acc).year
    ∧ ∀ m ∈ l, m.year ≤ (l.foldl latestStep acc).year := by
  induction l with
  | nil =>
    intro acc
    exact ⟨Or.inl rfl, le_refl _, by simp⟩
  | cons n t ih =>
    intro acc
    obtain ⟨hmem, hacc, hall⟩ := ih (latestStep acc n)
    have hstep_le : acc.year ≤ (latestStep acc n).year := by
      rw [latestStep]
      by_cases hlt : acc.year < n.year
      · rw [if_pos hlt]; exact le_of_lt hlt
      · rw [if_neg hlt]
    have hstep_n : n.year ≤ (latestStep acc n).year := by
      rw [latestStep]
      by_cases hlt : acc.year < n.year
      · rw [if_pos hlt]
      · rw [if_neg hlt]; exact le_of_not_lt hlt
    have hstep_mem : latestStep acc n = acc ∨ latestStep acc n = n := by
      rw [latestStep]
      by_cases hlt : acc.year < n.year
      · rw [if_pos hlt]; exact Or.inr rfl
      · rw [if_neg hlt]; exact Or.inl rfl
    rw [List.foldl_cons]
    refine ⟨?_, le_trans hstep_le hacc, ?_⟩
    · rcases hmem with h2 | h2
      · rcases hstep_mem with h3 | h3
        · exact Or.inl (h2.trans h3)
        · exact Or.inr (by rw [h2, h3]; exact List.mem_cons_self n t)
      · exact Or.inr (List.mem_cons_of_mem n h2)
    · intro m hm
      rcases List.mem_cons.mp hm with rfl | hmt
      · exact le_trans hstep_n hacc
      · exact hall m hmt

/-- C9: on a non-empty observation list the housing fetch returns some
observation whose year is maximal among all observations, with houses
equal to the integer parse of its value (0 when absent) and housesYear
equal to its year; and when no sub-code is available (housing absent)
the stored record has houses 0 and housesYear null. -/
theorem fetchHousingData_latest_year (nodes : List Obs)
    (fin : Option FinData) (h : nodes ≠ []) :
    (∃ n ∈ nodes, (∀ m ∈ nodes, m.year ≤ n.year) ∧
      fetchHousingData nodes = some ⟨n.year, n.value.getD 0, n.territory⟩)
    ∧ (toStatRecord fin none).houses = 0
    ∧ (toStatRecord fin none).housesYear = none := by
  refine ⟨?_, rfl, rfl⟩
  cases nodes with
  | nil => exact absurd rfl h
  | cons hd tl =>
    obtain ⟨hmem, hacc, hall⟩ := foldl_latest_facts (hd :: tl) hd
    refine ⟨(hd :: tl).foldl latestStep hd, ?_, hall, rfl⟩
    rcases hmem with h2 | h2
    · rw [h2]; exact List.mem_cons_self hd tl
    · exact h2

/-- A 2021 observation with value 100. -/
def obsA : Obs := ⟨2021, some 100, none⟩

/-- A 2023 observation with value 480. -/
def obsB : Obs := ⟨2023, some 480, none⟩

/-- Witness instantiating C9 on a two-observation list: the selected
observation is the 2023 one. -/
theorem fetchHousingData_latest_year_witness :
    (([obsA, obsB] : List Obs) ≠ []) ∧
      ((∃ n ∈ ([obsA, obsB] : List Obs),
        (∀ m ∈ ([obsA, obsB] : List Obs), m.year ≤ n.year) ∧
          fetchHousingData [obsA, obsB] =
            some ⟨n.year, n.value.getD 0, n.territory⟩)
      ∧ (toStatRecord none none).houses = 0
      ∧ (toStatRecord none none).housesYear = none) :=
  ⟨by decide, fetchHousingData_latest_year [obsA, obsB] none (by decide)⟩

/-- Dropping the head of a list moves it into the default of the
getLast-with-default view. -/
theorem getLastD_of_cons {α : Type} :
    ∀ (xs : List α) (x d : α),
      ((x :: xs).getLast?).getD d = (xs.getLast?).getD x := by
  intro xs
  induction xs with
  | nil => intro x d; rfl
  | cons y ys ih =>
    intro x d
    rw [List.getLast?_cons_cons, ih y d, ih y x]

/-- The per-year row loop computes the parsed amount of the last
07.01.01 row, whatever the start value. -/
theorem foldl_lastMatch (nodes : List FinRow) : ∀ a : ℚ,
    nodes.foldl (fun acc n => if isTargetRow n then parseAmt n else acc) a =
      (((nodes.filter isTargetRow).map parseAmt).getLast?).getD a := by
  induction nodes with
  | nil => intro a; rfl
  | cons n t ih =>
    intro a
    rw [List.foldl_cons]
    by_cases hn : isTargetRow n = true
    · rw [if_pos hn, ih (parseAmt n), List.filter_cons, if_pos hn,
        List.map_cons, getLastD_of_cons]
    · rw [if_neg hn, ih a, List.filter_cons, if_neg hn]

/-- A response with two positive 07.01.01 rows (100 then 40) in 2025. -/
def respTwo : ℤ → Option (List FinRow) := fun y =>
  if y = 2025 then
    some [⟨str "07.01.01", some 100⟩, ⟨str "07.01.01", some 40⟩]
  else none

/-- A response whose every year has a positive 07.01.01 row followed by
a zero 07.01.01 row. -/
def respZeroLast : ℤ → Option (List FinRow) := fun _ =>
  some [⟨str "07.01.01", some 100⟩, ⟨str "07.01.01", some 0⟩]

/-- C10: within one year's response the accumulated 07.01.01 amount is
the parsed amount of the last matching row (first conjunct); with rows
100 then 40 in 2025 the proxy returns 40, not 100 and not the sum
(second conjunct); and when a later matching row resets the amount to
zero the year is rejected even though an earlier row was positive
(third conjunct). -/
theorem financial_last_row_wins (nodes : List FinRow) :
    lastMatchAmount nodes =
      (((nodes.filter isTargetRow).map parseAmt).getLast?).getD 0
    ∧ fetchFinancialData respTwo = some ⟨2025, (40 : ℚ), (40 : ℚ)⟩
    ∧ fetchFinancialData respZeroLast = none := by
  refine ⟨foldl_lastMatch nodes 0, ?_, by decide⟩
  have hy : yearAmount respTwo (2025 : ℤ) = (40 : ℚ) := by
    simp [yearAmount, respTwo, lastMatchAmount, isTargetRow, parseAmt]
  have h25 : decide (0 < yearAmount respTwo (2025 : ℤ)) = true := by
    rw [decide_eq_true_eq, hy]
    norm_num
  have hfind : ([2025, 2024, 2023, 2022] : List ℤ).find?
      (fun y => decide (0 < yearAmount respTwo y)) = some 2025 := by
    simp only [List.find?, h25]
  have he := finLoop_eq_find respTwo [2025, 2024, 2023, 2022]
  rw [hfind] at he
  have hr : round2 (40 : ℚ) = (40 : ℚ) := by
    rw [round2]
    have hf : ⌊(40 * 100 + 1 / 2 : ℚ)⌋ = 4000 := by
      rw [Int.floor_eq_iff]
      norm_num
    rw [hf]
    norm_num
  simp only [fetchFinancialData, he, Option.map_some', hy, hr]

/-- A fold of per-key store steps leaves every key outside the folded
list untouched, provided each step only writes its own key. -/
theorem foldl_store_apply (step : Store → Key → Store)
    (hstep : ∀ (s : Store) (k2 k : Key), k ≠ k2 → step s k2 k = s k) :
    ∀ (l : List Key) (s : Store) (k : Key), k ∉ l →
      l.foldl step s k = s k := by
  intro l
  induction l with
  | nil => intro s k _; rfl
  | cons a t ih =>
    intro s k hk
    rw [List.foldl_cons]
    have hka : k ≠ a := fun h2 => hk (h2 ▸ List.mem_cons_self a t)
    rw [ih (step s a) k (fun h2 => hk (List.mem_cons_of_mem a h2))]
    exact hstep s a k hka

/-- The retry-missing merge step only writes the key it processes. -/
theorem mergeStepMissing_other (fetch : Key → Option StatRecord)
    (s : Store) (k2 k : Key) (h : k ≠ k2) :
    mergeStepMissing fetch s k2 k = s k := by
  rw [mergeStepMissing]
  cases fetch k2 with
  | none => rfl
  | some d =>
    show (if mergeGuard d = true then updateStore s k2 d else s) k = s k
    by_cases hg : mergeGuard d = true
    · rw [if_pos hg, updateStore, if_neg h]
    · rw [if_neg hg]

/-- The retry-final merge step only writes the key it processes. -/
theorem mergeStepFinal_other
    (fetch : Key → Option (Option TaxPair × Option HouseRec))
    (s : Store) (k2 k : Key) (h : k ≠ k2) :
    mergeStepFinal fetch s k2 k = s k := by
  rw [mergeStepFinal]
  cases fetch k2 with
  | none => rfl
  | some p =>
    obtain ⟨fin, hou⟩ := p
    show (if (fin.isSome || hou.isSome) = true then
        updateStore s k2 (recordFinal fin hou) else s) k = s k
    by_cases hg : (fin.isSome || hou.isSome) = true
    · rw [if_pos hg, updateStore, if_neg h]
    · rw [if_neg hg]

/-- A key holding a record with positive tax or positive houses is not a
retry target. -/
theorem isRetryTarget_false_of_nonzero (store : Store) (k : Key)
    (r : StatRecord) (hr : store k = some r)
    (hnz : 0 < r.tax ∨ 0 < r.houses) : isRetryTarget store k = false := by
  rw [isRetryTarget, hr]
  rcases hnz with h | h
  · simp [h.ne']
  · simp [h.ne']

/-- C4: a key whose stored record has positive tax or positive houses is
untouched by an incremental re-run of either retry script, whatever the
catalog and whatever every re-resolution returns: such a key is not
selected as a target, and the loop only writes target keys. -/
theorem nonzero_record_preserved (catalog : List Key)
    (fetchM : Key → Option StatRecord)
    (fetchF : Key → Option (Option TaxPair × Option HouseRec))
    (store : Store) (k : Key) (r : StatRecord)
    (hr : store k = some r) (hnz : 0 < r.tax ∨ 0 < r.houses) :
    runMissing catalog fetchM store k = store k
    ∧ runFinal catalog fetchF store k = store k := by
  have htarget : isRetryTarget store k = false :=
    isRetryTarget_false_of_nonzero store k r hr hnz
  have hnot : k ∉ selectTargets catalog store := by
    intro hmem
    have h2 := (List.mem_filter.mp hmem).2
    rw [htarget] at h2
    exact Bool.false_ne_true h2
  exact ⟨foldl_store_apply (mergeStepMissing fetchM)
      (mergeStepMissing_other fetchM) _ store k hnot,
    foldl_store_apply (mergeStepFinal fetchF)
      (mergeStepFinal_other fetchF) _ store k hnot⟩

/-- The key of the concrete witness store. -/
def keyW : Key := (str "Sample", str "Alba")

/-- The non-zero record held by the witness store. -/
def recW : StatRecord := ⟨1200, some 2024, 10, some 2023⟩

/-- A store holding one non-zero record. -/
def storeW : Store := fun k => if k = keyW then some recW else none

/-- A catalog containing the stored key and one unknown key. -/
def catalogW : List Key := [keyW, (str "Sample", str "Beta")]

/-- Witness instantiating C4: the re-run resolves everything to a zero
record (or to nothing), yet the non-zero record survives unchanged. -/
theorem nonzero_record_preserved_witness :
    storeW keyW = some recW ∧ (0 < recW.tax ∨ 0 < recW.houses) ∧
      runMissing catalogW (fun _ => some ⟨0, none, 0, none⟩) storeW keyW =
        storeW keyW ∧
      runFinal catalogW (fun _ => none) storeW keyW = storeW keyW := by
  refine ⟨rfl, Or.inl (by norm_num [recW]), ?_, ?_⟩
  · exact (nonzero_record_preserved catalogW (fun _ => some ⟨0, none, 0, none⟩)
      (fun _ => none) storeW keyW recW rfl (Or.inl (by norm_num [recW]))).1
  · exact (nonzero_record_preserved catalogW (fun _ => some ⟨0, none, 0, none⟩)
      (fun _ => none) storeW keyW recW rfl (Or.inl (by norm_num [recW]))).2

/-- C5: a catalog key is selected as a retry target precisely when it is
absent from the store or stored with tax zero and houses zero (first
conjunct); consequently a key with a non-zero stored statistic is never
among the selected targets (second conjunct). -/
theorem retry_target_iff (catalog : List Key) (store : Store) (k : Key) :
    (k ∈ selectTargets catalog store ↔
      k ∈ catalog ∧ (store k = none ∨
        ∃ r, store k = some r ∧ r.tax = 0 ∧ r.houses = 0))
    ∧ ∀ r, store k = some r → (0 < r.tax ∨ 0 < r.houses) →
      k ∉ selectTargets catalog store := by
  have hiff : isRetryTarget store k = true ↔
      (store k = none ∨ ∃ r, store k = some r ∧ r.tax = 0 ∧ r.houses = 0) := by
    rw [isRetryTarget]
    cases h : store k with
    | none => simp
    | some r => simp
  constructor
  · exact Iff.trans List.mem_filter (and_congr_right fun _ => hiff)
  · intro r hr hnz hmem
    have h2 := (List.mem_filter.mp hmem).2
    rw [isRetryTarget_false_of_nonzero store k r hr hnz] at h2
    exact Bool.false_ne_true h2

/-- Witness instantiating C5: the key holding the non-zero record is not
selected, even though it is in the catalog. -/
theorem retry_target_iff_witness :
    storeW keyW = some recW ∧ (0 < recW.tax ∨ 0 < recW.houses) ∧
      keyW ∉ selectTargets catalogW storeW :=
  ⟨rfl, Or.inl (by norm_num [recW]),
    (retry_target_iff catalogW storeW keyW).2 recW rfl
      (Or.inl (by norm_num [recW]))⟩

end CartInspect

